import Mathlib

/-!
Shallow embedding of the reconciliation engine in
`packages/syft/src/syft/client/syncing.py`: the structural diff
primitives (`get_diff_dict`, `get_diff_list`), the per-category record
comparators, the `Diff` record and merge classifier (`State.add_obj`),
the derived query `objs_to_sync`, and the state builder
(`get_sync_state`).

Modelling conventions:
* attribute values compared only by `==`/`!=` in Python are modelled by
  the opaque scalar type `Val := Nat`;
* Python `None` becomes `Option`; Python exceptions become
  `Except String`;
* Python `set`s of keys are modelled as lists, meaningful up to
  membership;
* each record category is a structure whose fields are exactly the
  attributes the source's comparator reads (plus `id`).
-/

set_option autoImplicit false

namespace Syncing

/-- Opaque scalar attribute value: the source only ever compares these
with `!=`. -/
abbrev Val := Nat

/-! ### Structural diff primitives -/

/-- Keys of a mapping modelled as an association list. -/
def dkeys {K V : Type} (d : List (K × V)) : List K :=
  d.map Prod.fst

/-- `d[k]` of a mapping modelled as an association list (first match;
coincides with Python dict lookup since dict keys are unique). -/
def dlookup {K V : Type} [DecidableEq K] (d : List (K × V)) (k : K) : Option V :=
  (d.find? (fun p => decide (p.1 = k))).map Prod.snd

/-- Embedding of `get_diff_dict` (syncing.py lines 101-115): key sets are
modelled as lists up to membership. -/
def get_diff_dict {K V : Type} [DecidableEq K] [DecidableEq V]
    (low_dict high_dict : List (K × V)) : List K × List K × List K :=
  let low_dict_keys := dkeys low_dict
  let high_dict_keys := dkeys high_dict
  let common_keys := low_dict_keys.filter (fun k => decide (k ∈ high_dict_keys))
  let new_low_keys := low_dict_keys.filter (fun k => decide (k ∉ high_dict_keys))
  let new_high_keys := high_dict_keys.filter (fun k => decide (k ∉ low_dict_keys))
  let diff_keys := common_keys.filter (fun k => decide (dlookup low_dict k ≠ dlookup high_dict k))
  (diff_keys, new_low_keys, new_high_keys)

/-- Embedding of `get_diff_list` (syncing.py lines 117-135): the length
branch fixes `common_length` and the one-sided index ranges, then indices
below `common_length` are compared positionally. -/
def get_diff_list {V : Type} [DecidableEq V]
    (low_list high_list : List V) : List Nat × List Nat × List Nat :=
  let lengths :=
    if low_list.length ≠ high_list.length then
      if low_list.length > high_list.length then
        (high_list.length,
         List.range' high_list.length (low_list.length - high_list.length),
         ([] : List Nat))
      else
        (low_list.length,
         ([] : List Nat),
         List.range' low_list.length (high_list.length - low_list.length))
    else
      (low_list.length, [], [])
  let diff_ids := (List.range lengths.1).filter
    (fun i => decide (low_list.get? i ≠ high_list.get? i))
  (diff_ids, lengths.2.1, lengths.2.2)

/-! ### Record categories and their fields

Each structure lists exactly the attributes read by that category's
comparator in syncing.py, plus the stable `id`. -/

/-- The six record classes dispatched by `get_type` (syncing.py 513-526). -/
inductive Category
  | project
  | request
  | userCode
  | job
  | syftLog
  | actionObject
deriving DecidableEq, Repr

/-- `Project` record: no comparator is registered for it (`func_dict`
maps it to `None`), so only its identity and an opaque payload matter. -/
structure ProjectRec where
  id : Nat
  payload : Val
deriving DecidableEq, Repr

/-- `SyftLog` record: fields read by `get_diff_log` (lines 246-249). -/
structure LogRec where
  id : Nat
  stdout : Val
  stderr : Val
deriving DecidableEq, Repr

/-- `Request` record: fields read by `get_diff_request` (lines 144-152,
161, 175). -/
structure RequestRec where
  id : Nat
  requesting_user_name : Val
  requesting_user_email : Val
  requesting_user_institution : Val
  approving_user_verify_key : Val
  request_time : Val
  updated_at : Val
  request_hash : Val
  changes : List Val
  history : List Val
deriving DecidableEq, Repr

/-- `UserCode` record: fields read by `get_diff_user_code` (lines
202-221); `status_dict_values` models `list(code.status.status_dict.values())`
(lines 230-231). -/
structure UserCodeRec where
  id : Nat
  raw_code : Val
  input_policy_type : Val
  input_policy_init_kwargs : Val
  input_policy_state : Val
  output_policy_type : Val
  output_policy_init_kwargs : Val
  output_policy_state : Val
  parsed_code : Val
  service_func_name : Val
  unique_func_name : Val
  user_unique_func_name : Val
  code_hash : Val
  signature : Val
  input_kwargs : Val
  submit_time : Val
  uses_domain : Val
  worker_pool_name : Val
  status_dict_values : List Val
deriving DecidableEq, Repr

/-- `ActionObject` record: fields read by `get_diff_action_object`
(lines 306-328). -/
structure ActionObjectRec where
  id : Nat
  __attr_searchable__ : Val
  syft_action_data_cache : Val
  syft_blob_storage_entry_id : Val
  syft_pointer_type : Val
  syft_parent_hashes : Val
  syft_parent_op : Val
  syft_parent_args : Val
  syft_parent_kwargs : Val
  syft_history_hash : Val
  syft_internal_type : Val
  syft_node_uid : Val
  _syft_pre_hooks__ : Val
  _syft_post_hooks__ : Val
  syft_twin_type : Val
  syft_action_data_type : Val
  syft_action_data_repr_ : Val
  syft_action_data_str_ : Val
  syft_has_bool_attr : Val
  syft_resolve_data : Val
  syft_created_at : Val
  syft_resolved : Val
deriving DecidableEq, Repr

/-- Modelled from the spec: the `Job` class (imported from
`..service.job.job_stash`, not part of the given sources) exposes a
`result` that is either an `ActionDataEmpty` placeholder or an action
object record; `get_sync_state` tests it with
`isinstance(job.result, ActionDataEmpty)` (line 661). -/
inductive JobResult
  | actionDataEmpty (v : Val)
  | actionObj (a : ActionObjectRec)
deriving DecidableEq, Repr

/-- `Job` record: fields read by `get_diff_job` (lines 271-284). -/
structure JobRec where
  id : Nat
  result : JobResult
  resolved : Val
  status : Val
  log_id : Val
  parent_job_id : Val
  n_iters : Val
  current_iter : Val
  creation_time : Val
  job_pid : Val
  job_worker_id : Val
  updated_at : Val
  user_code_id : Val
deriving DecidableEq, Repr

/-- A record of one of the six known classes (the `SyftObject`s the
engine handles). -/
inductive SyftObj
  | project (p : ProjectRec)
  | request (r : RequestRec)
  | userCode (c : UserCodeRec)
  | job (j : JobRec)
  | syftLog (l : LogRec)
  | actionObject (a : ActionObjectRec)
deriving DecidableEq, Repr

/-- Embedding of `get_type` (syncing.py 513-526): the `isinstance`
chain; total here because `SyftObj` has exactly the six dispatched
classes (the `raise NotImplemented` branch is for objects outside
them). -/
def get_type : SyftObj → Category
  | .project _ => .project
  | .request _ => .request
  | .userCode _ => .userCode
  | .job _ => .job
  | .syftLog _ => .syftLog
  | .actionObject _ => .actionObject

/-! ### Field-level differences and per-category comparators -/

/-- An attribute value as stored in a `DiffAttr`: Python's `Any`. Only
`Job.result` is compared at a non-scalar type in the source. -/
inductive PyVal
  | v (x : Val)
  | jres (r : JobResult)
deriving DecidableEq, Repr

/-- One field-level difference: `DiffAttr` (lines 56-62) together with
its `DiffList` specialization (lines 85-91); `DiffDict` is declared in
the source but never produced by a comparator. -/
inductive DiffAttr
  | attr (attr_name : String) (low_attr high_attr : PyVal)
  | dlist (attr_name : String) (low_attr high_attr : List Val)
      (diff_ids new_low_ids new_high_ids : List Nat)
deriving DecidableEq, Repr

/-- One iteration of the comparators' shared loop body
`if getattr(low, attr) != getattr(high, attr): append DiffAttr(...)`,
at a scalar attribute. -/
def scalarDiff (attr_name : String) (low_attr high_attr : Val) : List DiffAttr :=
  if low_attr ≠ high_attr then [.attr attr_name (.v low_attr) (.v high_attr)] else []

/-- The `for l in list_diffs: if len(l) != 0: append(DiffList(...)); break`
pattern of `get_diff_request` (lines 162-173 and 176-187): one `DiffList`
is appended iff any of the three component lists is non-empty. -/
def listDiffAttr (attr_name : String) (low_attr high_attr : List Val) : List DiffAttr :=
  let d := get_diff_list low_attr high_attr
  if d.1 ≠ [] ∨ d.2.1 ≠ [] ∨ d.2.2 ≠ [] then
    [.dlist attr_name low_attr high_attr d.1 d.2.1 d.2.2]
  else []

/-- Embedding of `get_diff_log` (lines 239-258): id sanity check, then
the `basic_attrs` loop unrolled in source order. -/
def get_diff_log (low_log high_log : LogRec) : Except String (List DiffAttr) :=
  if low_log.id ≠ high_log.id then
    .error "Not the same id for low side and high side requests"
  else
    .ok (scalarDiff "stdout" low_log.stdout high_log.stdout
      ++ scalarDiff "stderr" low_log.stderr high_log.stderr)

/-- Embedding of `get_diff_request` (lines 137-189): id sanity check,
the seven `basic_attrs` in source order, then the `changes` and
`history` list diffs. -/
def get_diff_request (low_request high_request : RequestRec) :
    Except String (List DiffAttr) :=
  if low_request.id ≠ high_request.id then
    .error "Not the same id for low side and high side requests"
  else
    .ok (scalarDiff "requesting_user_name"
        low_request.requesting_user_name high_request.requesting_user_name
      ++ scalarDiff "requesting_user_email"
        low_request.requesting_user_email high_request.requesting_user_email
      ++ scalarDiff "requesting_user_institution"
        low_request.requesting_user_institution high_request.requesting_user_institution
      ++ scalarDiff "approving_user_verify_key"
        low_request.approving_user_verify_key high_request.approving_user_verify_key
      ++ scalarDiff "request_time" low_request.request_time high_request.request_time
      ++ scalarDiff "updated_at" low_request.updated_at high_request.updated_at
      ++ scalarDiff "request_hash" low_request.request_hash high_request.request_hash
      ++ listDiffAttr "change" low_request.changes high_request.changes
      ++ listDiffAttr "history" low_request.history high_request.history)

/-- Embedding of `get_diff_user_code` (lines 191-237): id sanity check,
the seventeen `basic_attrs` in source order, then the unwrapped status
discriminant `list(code.status.status_dict.values())[0]` (an out-of-range
index on an empty dict raises, as in Python). -/
def get_diff_user_code (low_code high_code : UserCodeRec) :
    Except String (List DiffAttr) :=
  if low_code.id ≠ high_code.id then
    .error "Not the same id for low side and high side requests"
  else
    match low_code.status_dict_values, high_code.status_dict_values with
    | low_status :: _, high_status :: _ =>
      .ok (scalarDiff "raw_code" low_code.raw_code high_code.raw_code
        ++ scalarDiff "input_policy_type" low_code.input_policy_type high_code.input_policy_type
        ++ scalarDiff "input_policy_init_kwargs"
          low_code.input_policy_init_kwargs high_code.input_policy_init_kwargs
        ++ scalarDiff "input_policy_state" low_code.input_policy_state high_code.input_policy_state
        ++ scalarDiff "output_policy_type" low_code.output_policy_type high_code.output_policy_type
        ++ scalarDiff "output_policy_init_kwargs"
          low_code.output_policy_init_kwargs high_code.output_policy_init_kwargs
        ++ scalarDiff "output_policy_state"
          low_code.output_policy_state high_code.output_policy_state
        ++ scalarDiff "parsed_code" low_code.parsed_code high_code.parsed_code
        ++ scalarDiff "service_func_name" low_code.service_func_name high_code.service_func_name
        ++ scalarDiff "unique_func_name" low_code.unique_func_name high_code.unique_func_name
        ++ scalarDiff "user_unique_func_name"
          low_code.user_unique_func_name high_code.user_unique_func_name
        ++ scalarDiff "code_hash" low_code.code_hash high_code.code_hash
        ++ scalarDiff "signature" low_code.signature high_code.signature
        ++ scalarDiff "input_kwargs" low_code.input_kwargs high_code.input_kwargs
        ++ scalarDiff "submit_time" low_code.submit_time high_code.submit_time
        ++ scalarDiff "uses_domain" low_code.uses_domain high_code.uses_domain
        ++ scalarDiff "worker_pool_name" low_code.worker_pool_name high_code.worker_pool_name
        ++ scalarDiff "status" low_status high_status)
    | _, _ => .error "IndexError: list index out of range"

/-- Embedding of `get_diff_job` (lines 260-293): id sanity check, then
the twelve `basic_attrs` in source order (`result` compared at its own
type). -/
def get_diff_job (low_job high_job : JobRec) : Except String (List DiffAttr) :=
  if low_job.id ≠ high_job.id then
    .error "Not the same id for low side and high side requests"
  else
    .ok ((if low_job.result ≠ high_job.result then
          [DiffAttr.attr "result" (.jres low_job.result) (.jres high_job.result)]
        else [])
      ++ scalarDiff "resolved" low_job.resolved high_job.resolved
      ++ scalarDiff "status" low_job.status high_job.status
      ++ scalarDiff "log_id" low_job.log_id high_job.log_id
      ++ scalarDiff "parent_job_id" low_job.parent_job_id high_job.parent_job_id
      ++ scalarDiff "n_iters" low_job.n_iters high_job.n_iters
      ++ scalarDiff "current_iter" low_job.current_iter high_job.current_iter
      ++ scalarDiff "creation_time" low_job.creation_time high_job.creation_time
      ++ scalarDiff "job_pid" low_job.job_pid high_job.job_pid
      ++ scalarDiff "job_worker_id" low_job.job_worker_id high_job.job_worker_id
      ++ scalarDiff "updated_at" low_job.updated_at high_job.updated_at
      ++ scalarDiff "user_code_id" low_job.user_code_id high_job.user_code_id)

/-- Embedding of `get_diff_action_object` (lines 295-337): id sanity
check, then the twenty-one `basic_attrs` in source order. It is defined
in the source but not registered in `func_dict`. -/
def get_diff_action_object (low_action_object high_action_object : ActionObjectRec) :
    Except String (List DiffAttr) :=
  if low_action_object.id ≠ high_action_object.id then
    .error "Not the same id for low side and high side requests"
  else
    .ok (scalarDiff "__attr_searchable__"
        low_action_object.__attr_searchable__ high_action_object.__attr_searchable__
      ++ scalarDiff "syft_action_data_cache"
        low_action_object.syft_action_data_cache high_action_object.syft_action_data_cache
      ++ scalarDiff "syft_blob_storage_entry_id"
        low_action_object.syft_blob_storage_entry_id high_action_object.syft_blob_storage_entry_id
      ++ scalarDiff "syft_pointer_type"
        low_action_object.syft_pointer_type high_action_object.syft_pointer_type
      ++ scalarDiff "syft_parent_hashes"
        low_action_object.syft_parent_hashes high_action_object.syft_parent_hashes
      ++ scalarDiff "syft_parent_op"
        low_action_object.syft_parent_op high_action_object.syft_parent_op
      ++ scalarDiff "syft_parent_args"
        low_action_object.syft_parent_args high_action_object.syft_parent_args
      ++ scalarDiff "syft_parent_kwargs"
        low_action_object.syft_parent_kwargs high_action_object.syft_parent_kwargs
      ++ scalarDiff "syft_history_hash"
        low_action_object.syft_history_hash high_action_object.syft_history_hash
      ++ scalarDiff "syft_internal_type"
        low_action_object.syft_internal_type high_action_object.syft_internal_type
      ++ scalarDiff "syft_node_uid"
        low_action_object.syft_node_uid high_action_object.syft_node_uid
      ++ scalarDiff "_syft_pre_hooks__"
        low_action_object._syft_pre_hooks__ high_action_object._syft_pre_hooks__
      ++ scalarDiff "_syft_post_hooks__"
        low_action_object._syft_post_hooks__ high_action_object._syft_post_hooks__
      ++ scalarDiff "syft_twin_type"
        low_action_object.syft_twin_type high_action_object.syft_twin_type
      ++ scalarDiff "syft_action_data_type"
        low_action_object.syft_action_data_type high_action_object.syft_action_data_type
      ++ scalarDiff "syft_action_data_repr_"
        low_action_object.syft_action_data_repr_ high_action_object.syft_action_data_repr_
      ++ scalarDiff "syft_action_data_str_"
        low_action_object.syft_action_data_str_ high_action_object.syft_action_data_str_
      ++ scalarDiff "syft_has_bool_attr"
        low_action_object.syft_has_bool_attr high_action_object.syft_has_bool_attr
      ++ scalarDiff "syft_resolve_data"
        low_action_object.syft_resolve_data high_action_object.syft_resolve_data
      ++ scalarDiff "syft_created_at"
        low_action_object.syft_created_at high_action_object.syft_created_at
      ++ scalarDiff "syft_resolved"
        low_action_object.syft_resolved high_action_object.syft_resolved)

/-! ### The comparator registry `func_dict` -/

/-- `get_diff_log` applied through the dynamic dispatch of `func_dict`:
on records of any other class Python's `getattr` would raise, modelled
as an error. -/
def compare_log_obj : SyftObj → SyftObj → Except String (List DiffAttr)
  | .syftLog l, .syftLog h => get_diff_log l h
  | _, _ => .error "AttributeError"

/-- `get_diff_job` applied through the dynamic dispatch of `func_dict`. -/
def compare_job_obj : SyftObj → SyftObj → Except String (List DiffAttr)
  | .job l, .job h => get_diff_job l h
  | _, _ => .error "AttributeError"

/-- `get_diff_user_code` applied through the dynamic dispatch of
`func_dict`. -/
def compare_user_code_obj : SyftObj → SyftObj → Except String (List DiffAttr)
  | .userCode l, .userCode h => get_diff_user_code l h
  | _, _ => .error "AttributeError"

/-- `get_diff_request` applied through the dynamic dispatch of
`func_dict`. -/
def compare_request_obj : SyftObj → SyftObj → Except String (List DiffAttr)
  | .request l, .request h => get_diff_request l h
  | _, _ => .error "AttributeError"

/-- Embedding of `func_dict` (syncing.py 341-349): the comparator
registry; `Project` and `ActionObject` are mapped to `None`. -/
def func_dict : Category → Option (SyftObj → SyftObj → Except String (List DiffAttr))
  | .syftLog => some compare_log_obj
  | .job => some compare_job_obj
  | .userCode => some compare_user_code_obj
  | .request => some compare_request_obj
  | .project => none
  | .actionObject => none

/-! ### Diff records, the merge classifier, and the state queries -/

/-- Embedding of the `Diff` class (syncing.py 380-388). -/
structure Diff where
  low_obj : Option SyftObj
  high_obj : Option SyftObj
  obj_type : Category
  merge_state : String
  diff_list : List DiffAttr
deriving DecidableEq, Repr

/-- Return value of `Diff.get_obj` (lines 435-439): either an optional
record (`self.low_obj if self.low_obj is not None else self.high_obj`)
or the string sentinel `"Error"`. -/
inductive ObjOrError
  | obj (o : Option SyftObj)
  | sentinel (s : String)
deriving DecidableEq, Repr

/-- Embedding of `Diff.get_obj` (lines 435-439). -/
def Diff.get_obj (d : Diff) : ObjOrError :=
  if d.merge_state = "NEW" then
    .obj (if d.low_obj.isSome then d.low_obj else d.high_obj)
  else
    .sentinel "Error"

/-- Embedding of `State.add_obj` (syncing.py 551-581): the merge
classifier. The state is the `diff_to_sync` list; `self.diff_to_sync.append`
becomes appending to it; raised exceptions become `Except.error`
(calling the `None` looked up from `func_dict` raises `TypeError` in
Python). -/
def add_obj (st : List Diff) (low_obj high_obj : Option SyftObj) :
    Except String (List Diff) :=
  match low_obj, high_obj with
  | none, none => .error "Both objects are None"
  | some lo, none =>
    .ok (st ++ [⟨some lo, none, get_type lo, "NEW", []⟩])
  | none, some hi =>
    .ok (st ++ [⟨none, some hi, get_type hi, "NEW", []⟩])
  | some lo, some hi =>
    let obj_type := get_type lo
    match func_dict obj_type with
    | none => .error "TypeError: NoneType object is not callable"
    | some override_func =>
      match override_func lo hi with
      | .error e => .error e
      | .ok diff_list =>
        let merge_state := if diff_list.length = 0 then "SAME" else "DIFF"
        .ok (st ++ [⟨some lo, some hi, obj_type, merge_state, diff_list⟩])

/-- Embedding of `State.objs_to_sync` (syncing.py 583-588). -/
def objs_to_sync (st : List Diff) : List ObjOrError :=
  (st.filter (fun d => decide (d.merge_state = "NEW"))).map Diff.get_obj

/-! ### The state builder `get_sync_state` -/

/-- One side's client, reduced to the record collections
`get_sync_state` reads from it. -/
structure Client where
  projects : List ProjectRec
  requests : List RequestRec
  code : List UserCodeRec
  jobs : List JobRec
  logs : List LogRec
deriving DecidableEq, Repr

/-- `dictify(high_side_projects)[i]`-style lookup: dict membership and
lookup by `id` (first match; coincides with the Python dict built by
`dictify` when, as the spec requires, identities are unique within a
side). -/
def findProject (l : List ProjectRec) (i : Nat) : Option ProjectRec :=
  l.find? (fun p => decide (p.id = i))

/-- Lookup of a request by `id` in a side's collection. -/
def findRequest (l : List RequestRec) (i : Nat) : Option RequestRec :=
  l.find? (fun r => decide (r.id = i))

/-- Lookup of a user-code record by `id` in a side's collection. -/
def findCode (l : List UserCodeRec) (i : Nat) : Option UserCodeRec :=
  l.find? (fun c => decide (c.id = i))

/-- Lookup of a job by `id` in a side's collection. -/
def findJob (l : List JobRec) (i : Nat) : Option JobRec :=
  l.find? (fun j => decide (j.id = i))

/-- Lookup of a log by `id` in a side's collection. -/
def findLog (l : List LogRec) (i : Nat) : Option LogRec :=
  l.find? (fun g => decide (g.id = i))

/-- Body of the projects loop of `get_sync_state` (lines 604-611):
pair a low-side project with the same-id high-side project when
present, else classify it against `None`. -/
def sync_projects_step (high_side_projects : List ProjectRec)
    (st : List Diff) (project : ProjectRec) : Except String (List Diff) :=
  match findProject high_side_projects project.id with
  | some hp => add_obj st (some (.project project)) (some (.project hp))
  | none => add_obj st (some (.project project)) none

/-- The projects loop of `get_sync_state`: iterates the low side. -/
def sync_projects (st : List Diff) (low high : List ProjectRec) :
    Except String (List Diff) :=
  low.foldlM (sync_projects_step high) st

/-- Body of the requests loop of `get_sync_state` (lines 621-628). -/
def sync_requests_step (high_side_requests : List RequestRec)
    (st : List Diff) (request : RequestRec) : Except String (List Diff) :=
  match findRequest high_side_requests request.id with
  | some hr => add_obj st (some (.request request)) (some (.request hr))
  | none => add_obj st (some (.request request)) none

/-- The requests loop of `get_sync_state`: iterates the low side. -/
def sync_requests (st : List Diff) (low high : List RequestRec) :
    Except String (List Diff) :=
  low.foldlM (sync_requests_step high) st

/-- Body of the user-code loop of `get_sync_state` (lines 637-644). -/
def sync_codes_step (high_side_codes : List UserCodeRec)
    (st : List Diff) (code : UserCodeRec) : Except String (List Diff) :=
  match findCode high_side_codes code.id with
  | some hc => add_obj st (some (.userCode code)) (some (.userCode hc))
  | none => add_obj st (some (.userCode code)) none

/-- The user-code loop of `get_sync_state`: iterates the low side. -/
def sync_codes (st : List Diff) (low high : List UserCodeRec) :
    Except String (List Diff) :=
  low.foldlM (sync_codes_step high) st

/-- Body of the jobs loop of `get_sync_state` (lines 652-662): note it
iterates the HIGH side, and it additionally classifies `(None, job.result)`
whenever the job's result is not an `ActionDataEmpty`. -/
def sync_jobs_step (low_side_jobs : List JobRec)
    (st : List Diff) (job : JobRec) : Except String (List Diff) :=
  match (match findJob low_side_jobs job.id with
    | some lj => add_obj st (some (.job lj)) (some (.job job))
    | none => add_obj st none (some (.job job))) with
  | .error e => .error e
  | .ok st1 =>
    match job.result with
    | .actionDataEmpty _ => .ok st1
    | .actionObj a => add_obj st1 none (some (.actionObject a))

/-- The jobs loop of `get_sync_state`: iterates the high side. -/
def sync_jobs (st : List Diff) (low high : List JobRec) :
    Except String (List Diff) :=
  high.foldlM (sync_jobs_step low) st

/-- Body of the logs loop of `get_sync_state` (lines 669-676): note it
iterates the HIGH side. -/
def sync_logs_step (low_side_logs : List LogRec)
    (st : List Diff) (log : LogRec) : Except String (List Diff) :=
  match findLog low_side_logs log.id with
  | some lg => add_obj st (some (.syftLog lg)) (some (.syftLog log))
  | none => add_obj st none (some (.syftLog log))

/-- The logs loop of `get_sync_state`: iterates the high side. -/
def sync_logs (st : List Diff) (low high : List LogRec) :
    Except String (List Diff) :=
  high.foldlM (sync_logs_step low) st

/-- Embedding of `get_sync_state` (syncing.py 594-679): starts from an
empty `State` and runs the five per-category loops in source order. -/
def get_sync_state (low_side_client high_side_client : Client) :
    Except String (List Diff) :=
  match sync_projects [] low_side_client.projects high_side_client.projects with
  | .error e => .error e
  | .ok st1 =>
  match sync_requests st1 low_side_client.requests high_side_client.requests with
  | .error e => .error e
  | .ok st2 =>
  match sync_codes st2 low_side_client.code high_side_client.code with
  | .error e => .error e
  | .ok st3 =>
  match sync_jobs st3 low_side_client.jobs high_side_client.jobs with
  | .error e => .error e
  | .ok st4 => sync_logs st4 low_side_client.logs high_side_client.logs

/-! ### Reachable states and the spec's presence invariant -/

/-- States reachable from the fresh `State()` (whose `diff_to_sync`
starts empty) by a sequence of successful `add_obj` calls. -/
inductive Built : List Diff → Prop
  | nil : Built []
  | step {st st' : List Diff} {l h : Option SyftObj} :
      Built st → add_obj st l h = .ok st' → Built st'

/-- The presence invariant of a `Diff` stated by the spec: exactly one
side absent iff `NEW`, both present iff `SAME` or `DIFF`, never both
absent. -/
def diffInvariant (d : Diff) : Prop :=
  (d.low_obj.isSome ≠ d.high_obj.isSome ↔ d.merge_state = "NEW") ∧
  ((d.low_obj.isSome ∧ d.high_obj.isSome) ↔
    (d.merge_state = "SAME" ∨ d.merge_state = "DIFF")) ∧
  ¬(d.low_obj = none ∧ d.high_obj = none)

/-! ### Concrete records used to exercise the definitions -/

/-- A client with empty collections on every category. -/
def emptyClient : Client := ⟨[], [], [], [], []⟩

/-- A job (id 7) whose result is an `ActionDataEmpty`. -/
def exJobADE : JobRec := ⟨7, .actionDataEmpty 0, 1, 1, 1, 1, 1, 1, 1, 1, 1, 1, 1⟩

/-- A client holding only the job `exJobADE` on the jobs category. -/
def exLowJobClient : Client := ⟨[], [], [], [exJobADE], []⟩

/-- A log record (id 3) with stdout 5 and stderr 6. -/
def exLogLow : LogRec := ⟨3, 5, 6⟩

/-- A log record with the same id as `exLogLow` but different stderr. -/
def exLogHigh : LogRec := ⟨3, 5, 7⟩

/-- A project record (id 1). -/
def exProject : ProjectRec := ⟨1, 0⟩

/-- An action object record (id 9) with all compared attributes 0. -/
def exAObj : ActionObjectRec :=
  ⟨9, 0, 0, 0, 0, 0, 0, 0, 0, 0, 0, 0, 0, 0, 0, 0, 0, 0, 0, 0, 0, 0⟩

/-- A job (id 8) whose result is the action object `exAObj`. -/
def exJobRes : JobRec := ⟨8, .actionObj exAObj, 1, 1, 1, 1, 1, 1, 1, 1, 1, 1, 1⟩

/-- A client holding only the job `exJobRes` on the jobs category. -/
def exHighJobClient : Client := ⟨[], [], [], [exJobRes], []⟩

/-- A client holding one project (id 1) and one log (`exLogLow`). -/
def exMixedClient : Client := ⟨[exProject], [], [], [], [exLogLow]⟩

/-! ### Helper lemmas about the classifier and the loops -/

/-- `add_obj` on a pair whose high side is absent (syncing.py 555-562),
by computation. -/
theorem add_obj_some_none (st : List Diff) (lo : SyftObj) :
    add_obj st (some lo) none =
      .ok (st ++ [⟨some lo, none, get_type lo, "NEW", []⟩]) := rfl

/-- `add_obj` on a pair whose low side is absent, by computation. -/
theorem add_obj_none_some (st : List Diff) (hi : SyftObj) :
    add_obj st none (some hi) =
      .ok (st ++ [⟨none, some hi, get_type hi, "NEW", []⟩]) := rfl

/-- `add_obj` on `(None, None)` raises (syncing.py 552-553), by
computation. -/
theorem add_obj_none_none (st : List Diff) :
    add_obj st none none = .error "Both objects are None" := rfl

/-- Complete case analysis of a successful `add_obj` call: it appends
exactly one `Diff`, of one of the three shapes the source can build. -/
theorem add_obj_cases {st st' : List Diff} {l h : Option SyftObj}
    (hok : add_obj st l h = .ok st') :
    (∃ lo, l = some lo ∧ h = none ∧
      st' = st ++ [⟨some lo, none, get_type lo, "NEW", []⟩]) ∨
    (∃ hi, l = none ∧ h = some hi ∧
      st' = st ++ [⟨none, some hi, get_type hi, "NEW", []⟩]) ∨
    (∃ lo hi f dl, l = some lo ∧ h = some hi ∧
      func_dict (get_type lo) = some f ∧ f lo hi = .ok dl ∧
      st' = st ++ [⟨some lo, some hi, get_type lo,
        if dl.length = 0 then "SAME" else "DIFF", dl⟩]) := by
  match l, h with
  | none, none => exact absurd hok (by simp [add_obj])
  | some lo, none =>
    exact Or.inl ⟨lo, rfl, rfl, (Except.ok.inj hok).symm⟩
  | none, some hi =>
    exact Or.inr (Or.inl ⟨hi, rfl, rfl, (Except.ok.inj hok).symm⟩)
  | some lo, some hi =>
    refine Or.inr (Or.inr ⟨lo, hi, ?_⟩)
    simp only [add_obj] at hok
    cases hfd : func_dict (get_type lo) with
    | none => rw [hfd] at hok; exact absurd hok (by simp)
    | some f =>
      rw [hfd] at hok
      dsimp only at hok
      cases hov : f lo hi with
      | error e => rw [hov] at hok; exact absurd hok (by simp)
      | ok dl =>
        rw [hov] at hok
        dsimp only at hok
        exact ⟨f, dl, rfl, rfl, rfl, hov, (Except.ok.inj hok).symm⟩

/-- A successful `add_obj` call appends exactly one new `Diff`, whose
two sides are the classified pair. -/
theorem add_obj_shape {st st' : List Diff} {l h : Option SyftObj}
    (hok : add_obj st l h = .ok st') :
    ∃ d, st' = st ++ [d] ∧ d.low_obj = l ∧ d.high_obj = h := by
  rcases add_obj_cases hok with ⟨lo, rfl, rfl, rfl⟩ | ⟨hi, rfl, rfl, rfl⟩ |
    ⟨lo, hi, f, dl, rfl, rfl, _, _, rfl⟩ <;> exact ⟨_, rfl, rfl, rfl⟩

/-- `add_obj` only appends: membership in the state is preserved. -/
theorem add_obj_mono {st st' : List Diff} {l h : Option SyftObj}
    (hok : add_obj st l h = .ok st') : ∀ d ∈ st, d ∈ st' := by
  obtain ⟨d0, rfl, -, -⟩ := add_obj_shape hok
  intro d hd
  exact List.mem_append_left _ hd

/-- A `foldlM` over `Except` whose step only appends preserves
membership in the accumulated state. -/
theorem foldlM_except_mem {α : Type} {f : List Diff → α → Except String (List Diff)}
    (hf : ∀ st a st', f st a = .ok st' → ∀ d ∈ st, d ∈ st')
    (l : List α) (st st' : List Diff) (hok : List.foldlM f st l = .ok st')
    {d : Diff} (hd : d ∈ st) : d ∈ st' := by
  induction l generalizing st with
  | nil =>
    simp only [List.foldlM_nil, pure] at hok
    exact (Except.ok.inj hok) ▸ hd
  | cons a as ih =>
    rw [List.foldlM_cons] at hok
    cases hfa : f st a with
    | error e => rw [hfa] at hok; exact absurd hok (by simp [Bind.bind, Except.bind])
    | ok st1 =>
      rw [hfa] at hok
      simp only [Bind.bind, Except.bind] at hok
      exact ih st1 hok (hf st a st1 hfa d hd)

/-- A `foldlM` over `Except` whose step only appends and, for each
processed element, leaves a diff satisfying `P`, covers every element of
the iterated list. -/
theorem foldlM_except_cov {α : Type} {f : List Diff → α → Except String (List Diff)}
    {P : α → Diff → Prop}
    (hf : ∀ st a st', f st a = .ok st' → ∀ d ∈ st, d ∈ st')
    (hcov : ∀ st a st', f st a = .ok st' → ∃ d ∈ st', P a d)
    (l : List α) (st st' : List Diff) (hok : List.foldlM f st l = .ok st')
    {a : α} (ha : a ∈ l) : ∃ d ∈ st', P a d := by
  induction l generalizing st with
  | nil => cases ha
  | cons b bs ih =>
    rw [List.foldlM_cons] at hok
    cases hfb : f st b with
    | error e => rw [hfb] at hok; exact absurd hok (by simp [Bind.bind, Except.bind])
    | ok st1 =>
      rw [hfb] at hok
      simp only [Bind.bind, Except.bind] at hok
      rcases List.mem_cons.mp ha with rfl | ha'
      · obtain ⟨d, hd, hPd⟩ := hcov st a st1 hfb
        exact ⟨d, foldlM_except_mem hf bs st1 st' hok hd, hPd⟩
      · exact ih st1 hok ha'

/-- Every diff in a reachable state satisfies the presence invariant. -/
theorem built_invariant {st : List Diff} (hb : Built st) :
    ∀ d ∈ st, diffInvariant d := by
  induction hb with
  | nil => intro d hd; cases hd
  | step hb hok ih =>
    intro d hd
    rcases add_obj_cases hok with ⟨lo, -, -, rfl⟩ | ⟨hi, -, -, rfl⟩ |
        ⟨lo, hi, f, dl, -, -, -, -, rfl⟩ <;>
      rcases List.mem_append.mp hd with h1 | h1
    · exact ih d h1
    · rw [List.mem_singleton.mp h1]; simp [diffInvariant]
    · exact ih d h1
    · rw [List.mem_singleton.mp h1]; simp [diffInvariant]
    · exact ih d h1
    · rw [List.mem_singleton.mp h1]
      by_cases hdl : dl.length = 0 <;> simp [diffInvariant, hdl]

/-- In a reachable state, a diff classified `NEW` has exactly one side
present, and `get_obj` returns that side. -/
theorem built_new_get_obj {st : List Diff} (hb : Built st) :
    ∀ d ∈ st, d.merge_state = "NEW" →
      (d.low_obj.isSome ∧ d.high_obj = none ∧ d.get_obj = .obj d.low_obj) ∨
      (d.low_obj = none ∧ d.high_obj.isSome ∧ d.get_obj = .obj d.high_obj) := by
  intro d hd hnew
  obtain ⟨hx, -, -⟩ := built_invariant hb d hd
  have hne : d.low_obj.isSome ≠ d.high_obj.isSome := hx.mpr hnew
  cases hlo : d.low_obj.isSome
  · cases hhi : d.high_obj.isSome
    · exact absurd (hlo.trans hhi.symm) hne
    · refine Or.inr ⟨Option.not_isSome_iff_eq_none.mp (by simp [hlo]), rfl, ?_⟩
      simp [Diff.get_obj, hnew, hlo]
  · cases hhi : d.high_obj.isSome
    · refine Or.inl ⟨rfl, Option.not_isSome_iff_eq_none.mp (by simp [hhi]), ?_⟩
      simp [Diff.get_obj, hnew, hlo]
    · exact absurd (hlo.trans hhi.symm) hne

/-! ### Per-loop lemmas -/

/-- The projects loop body only appends. -/
theorem sync_projects_step_mono (high : List ProjectRec) :
    ∀ st p st', sync_projects_step high st p = .ok st' → ∀ d ∈ st, d ∈ st' := by
  intro st p st' hok
  unfold sync_projects_step at hok
  split at hok <;> exact add_obj_mono hok

/-- The requests loop body only appends. -/
theorem sync_requests_step_mono (high : List RequestRec) :
    ∀ st r st', sync_requests_step high st r = .ok st' → ∀ d ∈ st, d ∈ st' := by
  intro st r st' hok
  unfold sync_requests_step at hok
  split at hok <;> exact add_obj_mono hok

/-- The user-code loop body only appends. -/
theorem sync_codes_step_mono (high : List UserCodeRec) :
    ∀ st c st', sync_codes_step high st c = .ok st' → ∀ d ∈ st, d ∈ st' := by
  intro st c st' hok
  unfold sync_codes_step at hok
  split at hok <;> exact add_obj_mono hok

/-- The logs loop body only appends. -/
theorem sync_logs_step_mono (low : List LogRec) :
    ∀ st g st', sync_logs_step low st g = .ok st' → ∀ d ∈ st, d ∈ st' := by
  intro st g st' hok
  unfold sync_logs_step at hok
  split at hok <;> exact add_obj_mono hok

/-- The jobs loop body only appends. -/
theorem sync_jobs_step_mono (low : List JobRec) :
    ∀ st j st', sync_jobs_step low st j = .ok st' → ∀ d ∈ st, d ∈ st' := by
  intro st j st' hok
  unfold sync_jobs_step at hok
  split at hok
  · exact absurd hok (by simp)
  · rename_i st1 hpair
    have h1 : ∀ d ∈ st, d ∈ st1 := by
      split at hpair <;> exact add_obj_mono hpair
    split at hok
    · intro d hd; exact (Except.ok.inj hok) ▸ h1 d hd
    · intro d hd; exact add_obj_mono hok d (h1 d hd)
/-- The projects loop body leaves a diff pairing the processed low-side
project with the high-side lookup of the same id. -/
theorem sync_projects_step_cov (high : List ProjectRec) :
    ∀ st p st', sync_projects_step high st p = .ok st' →
      ∃ d ∈ st', d.low_obj = some (.project p) ∧
        d.high_obj = (findProject high p.id).map SyftObj.project ∧
        (findProject high p.id = none → d.merge_state = "NEW" ∧ d.diff_list = []) := by
  intro st p st' hok
  unfold sync_projects_step at hok
  cases hf : findProject high p.id with
  | some hp =>
    rw [hf] at hok
    obtain ⟨d, rfl, hl, hh⟩ := add_obj_shape hok
    exact ⟨d, by simp, hl, by simp [hh], by intro hc; cases hc⟩
  | none =>
    rw [hf] at hok
    rw [add_obj_some_none] at hok
    cases Except.ok.inj hok
    exact ⟨⟨some (.project p), none, get_type (.project p), "NEW", []⟩,
      by simp, rfl, rfl, fun _ => ⟨rfl, rfl⟩⟩

/-- The requests loop body leaves a diff pairing the processed low-side
request with the high-side lookup of the same id. -/
theorem sync_requests_step_cov (high : List RequestRec) :
    ∀ st r st', sync_requests_step high st r = .ok st' →
      ∃ d ∈ st', d.low_obj = some (.request r) ∧
        d.high_obj = (findRequest high r.id).map SyftObj.request ∧
        (findRequest high r.id = none → d.merge_state = "NEW" ∧ d.diff_list = []) := by
  intro st r st' hok
  unfold sync_requests_step at hok
  cases hf : findRequest high r.id with
  | some hr =>
    rw [hf] at hok
    obtain ⟨d, rfl, hl, hh⟩ := add_obj_shape hok
    exact ⟨d, by simp, hl, by simp [hh], by intro hc; cases hc⟩
  | none =>
    rw [hf] at hok
    rw [add_obj_some_none] at hok
    cases Except.ok.inj hok
    exact ⟨⟨some (.request r), none, get_type (.request r), "NEW", []⟩,
      by simp, rfl, rfl, fun _ => ⟨rfl, rfl⟩⟩

/-- The user-code loop body leaves a diff pairing the processed low-side
code with the high-side lookup of the same id. -/
theorem sync_codes_step_cov (high : List UserCodeRec) :
    ∀ st c st', sync_codes_step high st c = .ok st' →
      ∃ d ∈ st', d.low_obj = some (.userCode c) ∧
        d.high_obj = (findCode high c.id).map SyftObj.userCode ∧
        (findCode high c.id = none → d.merge_state = "NEW" ∧ d.diff_list = []) := by
  intro st c st' hok
  unfold sync_codes_step at hok
  cases hf : findCode high c.id with
  | some hc =>
    rw [hf] at hok
    obtain ⟨d, rfl, hl, hh⟩ := add_obj_shape hok
    exact ⟨d, by simp, hl, by simp [hh], by intro hcn; cases hcn⟩
  | none =>
    rw [hf] at hok
    rw [add_obj_some_none] at hok
    cases Except.ok.inj hok
    exact ⟨⟨some (.userCode c), none, get_type (.userCode c), "NEW", []⟩,
      by simp, rfl, rfl, fun _ => ⟨rfl, rfl⟩⟩

/-- The logs loop body leaves a diff pairing the processed HIGH-side log
with the low-side lookup of the same id. -/
theorem sync_logs_step_cov (low : List LogRec) :
    ∀ st g st', sync_logs_step low st g = .ok st' →
      ∃ d ∈ st', d.high_obj = some (.syftLog g) ∧
        d.low_obj = (findLog low g.id).map SyftObj.syftLog ∧
        (findLog low g.id = none → d.merge_state = "NEW" ∧ d.diff_list = []) := by
  intro st g st' hok
  unfold sync_logs_step at hok
  cases hf : findLog low g.id with
  | some lg =>
    rw [hf] at hok
    obtain ⟨d, rfl, hl, hh⟩ := add_obj_shape hok
    exact ⟨d, by simp, hh, by simp [hl], by intro hc; cases hc⟩
  | none =>
    rw [hf] at hok
    rw [add_obj_none_some] at hok
    cases Except.ok.inj hok
    exact ⟨⟨none, some (.syftLog g), get_type (.syftLog g), "NEW", []⟩,
      by simp, rfl, rfl, fun _ => ⟨rfl, rfl⟩⟩

/-- The jobs loop body leaves a diff pairing the processed HIGH-side job
with the low-side lookup of the same id. -/
theorem sync_jobs_step_cov (low : List JobRec) :
    ∀ st j st', sync_jobs_step low st j = .ok st' →
      ∃ d ∈ st', d.high_obj = some (.job j) ∧
        d.low_obj = (findJob low j.id).map SyftObj.job ∧
        (findJob low j.id = none → d.merge_state = "NEW" ∧ d.diff_list = []) := by
  intro st j st' hok
  unfold sync_jobs_step at hok
  split at hok
  · exact absurd hok (by simp)
  · rename_i st1 hpair
    have hmono1 : ∀ d ∈ st1, d ∈ st' := by
      split at hok
      · intro d hd; exact (Except.ok.inj hok) ▸ hd
      · intro d hd; exact add_obj_mono hok d hd
    have hd1 : ∃ d ∈ st1, d.high_obj = some (.job j) ∧
        d.low_obj = (findJob low j.id).map SyftObj.job ∧
        (findJob low j.id = none → d.merge_state = "NEW" ∧ d.diff_list = []) := by
      cases hf : findJob low j.id with
      | some lj =>
        rw [hf] at hpair
        obtain ⟨d, rfl, hl, hh⟩ := add_obj_shape hpair
        exact ⟨d, by simp, hh, by simp [hl], by intro hc; cases hc⟩
      | none =>
        rw [hf] at hpair
        rw [add_obj_none_some] at hpair
        cases Except.ok.inj hpair
        exact ⟨⟨none, some (.job j), get_type (.job j), "NEW", []⟩,
          by simp, rfl, rfl, fun _ => ⟨rfl, rfl⟩⟩
    obtain ⟨d, hd, hprop⟩ := hd1
    exact ⟨d, hmono1 d hd, hprop⟩

/-- The jobs loop body also classifies the job's result as a
low-side-absent `NEW` diff whenever the result is not an
`ActionDataEmpty` (syncing.py 661-662). -/
theorem sync_jobs_step_res_cov (low : List JobRec) :
    ∀ st j st', sync_jobs_step low st j = .ok st' →
      ∃ d ∈ st', ∀ a, j.result = .actionObj a →
        d = ⟨none, some (.actionObject a), .actionObject, "NEW", []⟩ := by
  intro st j st' hok
  unfold sync_jobs_step at hok
  split at hok
  · exact absurd hok (by simp)
  · rename_i st1 hpair
    have hshape : ∃ d0, st1 = st ++ [d0] := by
      split at hpair
      · obtain ⟨d0, hd0, -, -⟩ := add_obj_shape hpair; exact ⟨d0, hd0⟩
      · obtain ⟨d0, hd0, -, -⟩ := add_obj_shape hpair; exact ⟨d0, hd0⟩
    obtain ⟨d0, rfl⟩ := hshape
    cases hres : j.result with
    | actionDataEmpty v =>
      rw [hres] at hok
      dsimp only at hok
      refine ⟨d0, (Except.ok.inj hok) ▸ (by simp : d0 ∈ st ++ [d0]), ?_⟩
      intro a ha
      cases ha
    | actionObj a =>
      rw [hres] at hok
      dsimp only at hok
      rw [add_obj_none_some] at hok
      cases Except.ok.inj hok
      refine ⟨⟨none, some (.actionObject a), get_type (.actionObject a), "NEW", []⟩,
        by simp, ?_⟩
      intro a' ha'
      cases ha'
      rfl

/-- Closed form of `get_diff_list`: the compared prefix length is
`min len(low) len(high)` and the one-sided index lists depend only on
the two lengths. -/
theorem get_diff_list_eq {V : Type} [DecidableEq V] (low high : List V) :
    get_diff_list low high =
      ((List.range (min low.length high.length)).filter
        (fun i => decide (low.get? i ≠ high.get? i)),
       if low.length > high.length then
         List.range' high.length (low.length - high.length) else [],
       if high.length > low.length then
         List.range' low.length (high.length - low.length) else []) := by
  unfold get_diff_list
  rcases Nat.lt_trichotomy low.length high.length with h | h | h
  · have h1 : low.length ≠ high.length := Nat.ne_of_lt h
    have h2 : ¬ low.length > high.length := Nat.not_lt.mpr (Nat.le_of_lt h)
    simp [h1, h2, h, Nat.min_eq_left (Nat.le_of_lt h)]
  · simp [h, Nat.lt_irrefl]
  · have h1 : low.length ≠ high.length := (Nat.ne_of_lt h).symm
    have h2 : ¬ high.length > low.length := Nat.not_lt.mpr (Nat.le_of_lt h)
    simp [h1, h2, h, Nat.min_eq_right (Nat.le_of_lt h)]

/-! ### Claim theorems -/

/-- C3: with `n = min len(low) len(high)`, the ordered-collection diff
returns as changed indices exactly the `i < n` where `low[i] != high[i]`
(so indices at or beyond `n` never appear as changed and the value
comparison only happens on the common prefix); when the low side is
longer the low-only indices are exactly `[n, len(low))` and the
high-only indices are empty, and symmetrically; when lengths agree both
one-sided lists are empty; and
`diff_sequence([1,2,3], [9,2]) = ({0}, {2}, {})`. -/
theorem get_diff_list_spec {V : Type} [DecidableEq V] (low high : List V) :
    (∀ i, i ∈ (get_diff_list low high).1 ↔
      i < min low.length high.length ∧ low.get? i ≠ high.get? i) ∧
    (low.length > high.length →
      (get_diff_list low high).2.1 =
        List.range' high.length (low.length - high.length) ∧
      (get_diff_list low high).2.2 = []) ∧
    (high.length > low.length →
      (get_diff_list low high).2.1 = [] ∧
      (get_diff_list low high).2.2 =
        List.range' low.length (high.length - low.length)) ∧
    (low.length = high.length →
      (get_diff_list low high).2.1 = [] ∧ (get_diff_list low high).2.2 = []) ∧
    get_diff_list ([1, 2, 3] : List Nat) [9, 2] = ([0], [2], []) := by
  refine ⟨?_, ?_, ?_, ?_, by decide⟩
  · intro i
    rw [get_diff_list_eq]
    simp [List.mem_filter, List.mem_range]
  · intro h
    rw [get_diff_list_eq]
    simp [h, Nat.lt_asymm h]
  · intro h
    rw [get_diff_list_eq]
    simp [h, Nat.lt_asymm h]
  · intro h
    rw [get_diff_list_eq]
    simp [h]

/-- Witness for C3 at the spec's concrete input: the low side is longer,
so the length-branch conclusions apply at `[1,2,3]` vs `[9,2]`. -/
theorem get_diff_list_spec_witness :
    (get_diff_list ([1, 2, 3] : List Nat) [9, 2]).2.1 = [2] ∧
    (get_diff_list ([1, 2, 3] : List Nat) [9, 2]).2.2 = [] ∧
    (0 ∈ (get_diff_list ([1, 2, 3] : List Nat) [9, 2]).1 ↔
      0 < min 3 2 ∧ ([1, 2, 3] : List Nat).get? 0 ≠ [9, 2].get? 0) := by
  have h := get_diff_list_spec ([1, 2, 3] : List Nat) [9, 2]
  have h21 := h.2.1 (by decide)
  exact ⟨h21.1.trans (by decide), h21.2, h.1 0⟩

/-- C4: the keyed-collection diff returns as low-only keys exactly
`keys(low) − keys(high)`, as high-only keys exactly
`keys(high) − keys(low)`, and as changed keys exactly the common keys
whose looked-up values differ under the value type's equality. -/
theorem get_diff_dict_spec {K V : Type} [DecidableEq K] [DecidableEq V]
    (low high : List (K × V)) :
    (∀ k, k ∈ (get_diff_dict low high).2.1 ↔ k ∈ dkeys low ∧ k ∉ dkeys high) ∧
    (∀ k, k ∈ (get_diff_dict low high).2.2 ↔ k ∈ dkeys high ∧ k ∉ dkeys low) ∧
    (∀ k, k ∈ (get_diff_dict low high).1 ↔
      k ∈ dkeys low ∧ k ∈ dkeys high ∧ dlookup low k ≠ dlookup high k) := by
  refine ⟨fun k => ?_, fun k => ?_, fun k => ?_⟩
  · simp [get_diff_dict, List.mem_filter]
  · simp [get_diff_dict, List.mem_filter]
  · simp only [get_diff_dict, List.mem_filter, decide_eq_true_eq]
    tauto

/-- The projects loop only appends to the state. -/
theorem sync_projects_mono {st st' : List Diff} {low high : List ProjectRec}
    (hok : sync_projects st low high = .ok st') : ∀ d ∈ st, d ∈ st' :=
  fun _ hd => foldlM_except_mem (sync_projects_step_mono high) low st st' hok hd

/-- The requests loop only appends to the state. -/
theorem sync_requests_mono {st st' : List Diff} {low high : List RequestRec}
    (hok : sync_requests st low high = .ok st') : ∀ d ∈ st, d ∈ st' :=
  fun _ hd => foldlM_except_mem (sync_requests_step_mono high) low st st' hok hd

/-- The user-code loop only appends to the state. -/
theorem sync_codes_mono {st st' : List Diff} {low high : List UserCodeRec}
    (hok : sync_codes st low high = .ok st') : ∀ d ∈ st, d ∈ st' :=
  fun _ hd => foldlM_except_mem (sync_codes_step_mono high) low st st' hok hd

/-- The jobs loop only appends to the state. -/
theorem sync_jobs_mono {st st' : List Diff} {low high : List JobRec}
    (hok : sync_jobs st low high = .ok st') : ∀ d ∈ st, d ∈ st' :=
  fun _ hd => foldlM_except_mem (sync_jobs_step_mono low) high st st' hok hd

/-- The logs loop only appends to the state. -/
theorem sync_logs_mono {st st' : List Diff} {low high : List LogRec}
    (hok : sync_logs st low high = .ok st') : ∀ d ∈ st, d ∈ st' :=
  fun _ hd => foldlM_except_mem (sync_logs_step_mono low) high st st' hok hd

/-- A successful `get_sync_state` run decomposes into its five
successful per-category loops, in source order. -/
theorem get_sync_state_decomp {lc hc : Client} {st : List Diff}
    (hok : get_sync_state lc hc = .ok st) :
    ∃ st1 st2 st3 st4,
      sync_projects [] lc.projects hc.projects = .ok st1 ∧
      sync_requests st1 lc.requests hc.requests = .ok st2 ∧
      sync_codes st2 lc.code hc.code = .ok st3 ∧
      sync_jobs st3 lc.jobs hc.jobs = .ok st4 ∧
      sync_logs st4 lc.logs hc.logs = .ok st := by
  unfold get_sync_state at hok
  split at hok
  · exact absurd hok (by simp)
  · rename_i st1 h1
    split at hok
    · exact absurd hok (by simp)
    · rename_i st2 h2
      split at hok
      · exact absurd hok (by simp)
      · rename_i st3 h3
        split at hok
        · exact absurd hok (by simp)
        · rename_i st4 h4
          exact ⟨st1, st2, st3, st4, h1, h2, h3, h4, hok⟩

/-- C2: the classifier `State.add_obj`: a pair with exactly one side
absent yields a `Diff` with merge state `NEW` and an empty difference
list; a pair with both sides present whose category's registered
comparator returns the difference list `dl` yields a `Diff` holding
exactly `dl`, with merge state `SAME` when `dl` is empty and `DIFF`
otherwise. -/
theorem add_obj_classification (st : List Diff) (lo hi : SyftObj) :
    (∀ st', add_obj st (some lo) none = .ok st' →
      ∃ d, st' = st ++ [d] ∧ d.merge_state = "NEW" ∧ d.diff_list = []) ∧
    (∀ st', add_obj st none (some hi) = .ok st' →
      ∃ d, st' = st ++ [d] ∧ d.merge_state = "NEW" ∧ d.diff_list = []) ∧
    (∀ f dl, func_dict (get_type lo) = some f → f lo hi = .ok dl →
      ∃ d, add_obj st (some lo) (some hi) = .ok (st ++ [d]) ∧
        d.low_obj = some lo ∧ d.high_obj = some hi ∧ d.diff_list = dl ∧
        (dl = [] → d.merge_state = "SAME") ∧
        (dl ≠ [] → d.merge_state = "DIFF")) := by
  refine ⟨?_, ?_, ?_⟩
  · intro st' hok
    rw [add_obj_some_none] at hok
    cases Except.ok.inj hok
    exact ⟨_, rfl, rfl, rfl⟩
  · intro st' hok
    rw [add_obj_none_some] at hok
    cases Except.ok.inj hok
    exact ⟨_, rfl, rfl, rfl⟩
  · intro f dl hfd hov
    refine ⟨⟨some lo, some hi, get_type lo,
      if dl.length = 0 then "SAME" else "DIFF", dl⟩, ?_, rfl, rfl, rfl, ?_, ?_⟩
    · unfold add_obj
      dsimp only
      rw [hfd]
      dsimp only
      rw [hov]
    · intro h
      simp [h]
    · intro h
      simp [List.length_eq_zero, h]

/-- Witness for C2: at the fresh state, a log pair with equal ids and
one differing attribute is classified `DIFF` with that single
difference, and a one-sided log is classified `NEW`. -/
theorem add_obj_classification_witness :
    ∃ d, add_obj [] (some (.syftLog exLogLow)) (some (.syftLog exLogHigh)) =
        .ok ([] ++ [d]) ∧
      d.diff_list = [.attr "stderr" (.v 6) (.v 7)] ∧ d.merge_state = "DIFF" := by
  obtain ⟨d, hok, -, -, hdl, -, hdiff⟩ :=
    (add_obj_classification [] (.syftLog exLogLow) (.syftLog exLogHigh)).2.2
      compare_log_obj [.attr "stderr" (.v 6) (.v 7)] rfl rfl
  exact ⟨d, hok, hdl, hdiff (by decide)⟩

/-- C6: every per-category comparator defined in the source raises on a
pair with mismatched identities, and the classifier raises on the pair
`(None, None)`. -/
theorem identity_mismatch_invalid_pair :
    (∀ l h : RequestRec, l.id ≠ h.id → ∃ e, get_diff_request l h = .error e) ∧
    (∀ l h : UserCodeRec, l.id ≠ h.id → ∃ e, get_diff_user_code l h = .error e) ∧
    (∀ l h : LogRec, l.id ≠ h.id → ∃ e, get_diff_log l h = .error e) ∧
    (∀ l h : JobRec, l.id ≠ h.id → ∃ e, get_diff_job l h = .error e) ∧
    (∀ l h : ActionObjectRec, l.id ≠ h.id →
      ∃ e, get_diff_action_object l h = .error e) ∧
    (∀ st : List Diff, add_obj st none none = .error "Both objects are None") := by
  refine ⟨?_, ?_, ?_, ?_, ?_, add_obj_none_none⟩
  · intro l h hne
    exact ⟨"Not the same id for low side and high side requests", by simp [get_diff_request, hne]⟩
  · intro l h hne
    exact ⟨"Not the same id for low side and high side requests", by simp [get_diff_user_code, hne]⟩
  · intro l h hne
    exact ⟨"Not the same id for low side and high side requests", by simp [get_diff_log, hne]⟩
  · intro l h hne
    exact ⟨"Not the same id for low side and high side requests", by simp [get_diff_job, hne]⟩
  · intro l h hne
    exact ⟨"Not the same id for low side and high side requests", by simp [get_diff_action_object, hne]⟩

/-- Witness for C6: logs with ids 3 and 4 make the comparator raise, and
`add_obj` on `(None, None)` raises. -/
theorem identity_mismatch_invalid_pair_witness :
    (∃ e, get_diff_log exLogLow ⟨4, 0, 0⟩ = .error e) ∧
    add_obj [] none none = .error "Both objects are None" :=
  ⟨identity_mismatch_invalid_pair.2.2.1 exLogLow ⟨4, 0, 0⟩ (by decide),
   identity_mismatch_invalid_pair.2.2.2.2.2 []⟩

/-- C7: every `Diff` in a state reachable by successful `add_obj` calls
satisfies the presence invariant (one side absent iff `NEW`, both
present iff `SAME` or `DIFF`, never both absent), and the both-absent
construction always fails with an error instead of producing a `Diff`. -/
theorem built_diff_invariant :
    (∀ st, Built st → ∀ d ∈ st, diffInvariant d) ∧
    (∀ st : List Diff, add_obj st none none = .error "Both objects are None") :=
  ⟨fun _ hb => built_invariant hb, add_obj_none_none⟩

/-- Witness for C7: the invariant holds for the diff produced by
classifying a one-sided project at the fresh state. -/
theorem built_diff_invariant_witness :
    diffInvariant ⟨some (.project exProject), none,
      get_type (.project exProject), "NEW", []⟩ := by
  have hb : Built ([] ++ [⟨some (.project exProject), none,
      get_type (.project exProject), "NEW", []⟩]) :=
    Built.step Built.nil (add_obj_some_none [] (.project exProject))
  exact built_diff_invariant.1 _ hb _ (by simp)

/-- C8: `Project` and `ActionObject` have no registered comparator in
`func_dict`, and classifying a both-present pair of any category whose
registry entry is `None` raises (`TypeError` from calling `None`)
rather than silently skipping the record or assigning it a merge
state. -/
theorem unsupported_category_raises :
    func_dict Category.project = none ∧
    func_dict Category.actionObject = none ∧
    (∀ (st : List Diff) (lo hi : SyftObj), func_dict (get_type lo) = none →
      add_obj st (some lo) (some hi) =
        .error "TypeError: NoneType object is not callable") := by
  refine ⟨rfl, rfl, ?_⟩
  intro st lo hi hfd
  unfold add_obj
  dsimp only
  rw [hfd]

/-- Witness for C8: a both-present project pair makes the classifier
raise. -/
theorem unsupported_category_raises_witness :
    add_obj [] (some (.project exProject)) (some (.project ⟨1, 5⟩)) =
      .error "TypeError: NoneType object is not callable" :=
  unsupported_category_raises.2.2 [] (.project exProject) (.project ⟨1, 5⟩) rfl

/-- C5: `objs_to_sync` returns, in entry order, exactly one element for
every `Diff` whose merge state is `NEW` — the `low_obj` when present,
otherwise the `high_obj` — and nothing for `SAME` or `DIFF` entries. -/
theorem objs_to_sync_spec (st : List Diff) :
    objs_to_sync st =
      (st.filter (fun d => decide (d.merge_state = "NEW"))).map
        (fun d => ObjOrError.obj
          (if d.low_obj.isSome then d.low_obj else d.high_obj)) := by
  unfold objs_to_sync
  apply List.map_congr_left
  intro d hd
  have hnew : d.merge_state = "NEW" :=
    of_decide_eq_true (List.mem_filter.mp hd).2
  simp [Diff.get_obj, hnew]

/-- C10: in any state reachable through the classifier, every `NEW`
diff has exactly one present side and `get_obj` returns it; and every
element `objs_to_sync` returns is an actual record — never the string
sentinel `"Error"` (whose branch requires a non-`NEW` merge state that
`objs_to_sync` filters out) and never an absent value. -/
theorem built_objs_to_sync_safe (st : List Diff) (hb : Built st) :
    (∀ d ∈ st, d.merge_state = "NEW" →
      (d.low_obj.isSome ∧ d.high_obj = none ∧ d.get_obj = .obj d.low_obj) ∨
      (d.low_obj = none ∧ d.high_obj.isSome ∧ d.get_obj = .obj d.high_obj)) ∧
    (∀ x ∈ objs_to_sync st, ∃ o : SyftObj, x = .obj (some o)) := by
  refine ⟨built_new_get_obj hb, ?_⟩
  intro x hx
  unfold objs_to_sync at hx
  obtain ⟨d, hd, rfl⟩ := List.mem_map.mp hx
  have hdf := List.mem_filter.mp hd
  have hnew : d.merge_state = "NEW" := of_decide_eq_true hdf.2
  rcases built_new_get_obj hb d hdf.1 hnew with ⟨hs, -, hg⟩ | ⟨-, hs, hg⟩ <;>
    obtain ⟨o, ho⟩ := Option.isSome_iff_exists.mp hs
  · exact ⟨o, by rw [hg, ho]⟩
  · exact ⟨o, by rw [hg, ho]⟩

/-- Witness for C10: for the reachable one-diff state classifying a
one-sided project, the returned object is the project record itself. -/
theorem built_objs_to_sync_safe_witness :
    ∃ o : SyftObj,
      ObjOrError.obj (some (.project exProject)) = .obj (some o) := by
  have hb : Built ([] ++ [⟨some (.project exProject), none,
      get_type (.project exProject), "NEW", []⟩]) :=
    Built.step Built.nil (add_obj_some_none [] (.project exProject))
  exact (built_objs_to_sync_safe _ hb).2 _ (by decide)

/-- C9: in any successful `get_sync_state` run, every HIGH-side job
whose result is not an `ActionDataEmpty` contributes an additional
`Diff` with an absent low side, the job's result object as high side
and merge state `NEW` — and that result object therefore also appears
in `objs_to_sync` — regardless of how the job itself was classified. -/
theorem get_sync_state_job_results (lc hc : Client) (st : List Diff)
    (hok : get_sync_state lc hc = .ok st) :
    ∀ j ∈ hc.jobs, ∀ a, j.result = .actionObj a →
      ∃ d ∈ st, d.low_obj = none ∧ d.high_obj = some (.actionObject a) ∧
        d.merge_state = "NEW" ∧
        ObjOrError.obj (some (.actionObject a)) ∈ objs_to_sync st := by
  obtain ⟨st1, st2, st3, st4, h1, h2, h3, h4, h5⟩ := get_sync_state_decomp hok
  intro j hj a ha
  obtain ⟨d, hd4, hP⟩ := foldlM_except_cov (sync_jobs_step_mono lc.jobs)
    (sync_jobs_step_res_cov lc.jobs) hc.jobs st3 st4 h4 hj
  have hdval := hP a ha
  have hd : d ∈ st := sync_logs_mono h5 d hd4
  have hget : d.get_obj = .obj (some (.actionObject a)) := by
    rw [hdval]
    rfl
  refine ⟨d, hd, by rw [hdval], by rw [hdval], by rw [hdval], ?_⟩
  rw [← hget]
  unfold objs_to_sync
  refine List.mem_map.mpr ⟨d, List.mem_filter.mpr ⟨hd, ?_⟩, rfl⟩
  rw [hdval]
  simp

/-- Witness for C9: with an empty low side and one high-side job whose
result is the action object `exAObj`, the run yields the job diff plus
the result diff, and the result object is in `objs_to_sync`. -/
theorem get_sync_state_job_results_witness :
    ∃ d ∈ ([⟨none, some (.job exJobRes), get_type (.job exJobRes), "NEW", []⟩,
        ⟨none, some (.actionObject exAObj), get_type (.actionObject exAObj),
          "NEW", []⟩] : List Diff),
      d.low_obj = none ∧ d.high_obj = some (.actionObject exAObj) ∧
      d.merge_state = "NEW" ∧
      ObjOrError.obj (some (.actionObject exAObj)) ∈ objs_to_sync
        [⟨none, some (.job exJobRes), get_type (.job exJobRes), "NEW", []⟩,
         ⟨none, some (.actionObject exAObj), get_type (.actionObject exAObj),
           "NEW", []⟩] :=
  get_sync_state_job_results emptyClient exHighJobClient _ rfl
    exJobRes (by decide) exAObj rfl

/-- C1 counterexample: a job present only on the LOW side is silently
dropped — `get_sync_state` over a low side holding one job and an empty
high side succeeds with an EMPTY state, so the low-side identity is
missing from the result instead of being classified `NEW`. -/
theorem get_sync_state_drops_low_only_job :
    exJobADE ∈ exLowJobClient.jobs ∧
    get_sync_state exLowJobClient emptyClient = .ok [] ∧
    ¬ ∃ d ∈ ([] : List Diff), d.low_obj = some (.job exJobADE) := by
  refine ⟨by decide, rfl, ?_⟩
  rintro ⟨d, hd, -⟩
  cases hd

/-- C1 (amended): in any successful run, the projects, requests and
user-code loops classify every identity present in the LOW-side
collection (paired with the same-id high-side record when present,
`NEW` when absent); the jobs and logs loops instead iterate the
HIGH-side collection and classify every high-side identity (paired with
the same-id low-side record when present, `NEW` when absent) — low-only
jobs and logs are not classified. -/
theorem get_sync_state_coverage (lc hc : Client) (st : List Diff)
    (hok : get_sync_state lc hc = .ok st) :
    (∀ p ∈ lc.projects, ∃ d ∈ st, d.low_obj = some (.project p) ∧
      d.high_obj = (findProject hc.projects p.id).map SyftObj.project ∧
      (findProject hc.projects p.id = none → d.merge_state = "NEW")) ∧
    (∀ r ∈ lc.requests, ∃ d ∈ st, d.low_obj = some (.request r) ∧
      d.high_obj = (findRequest hc.requests r.id).map SyftObj.request ∧
      (findRequest hc.requests r.id = none → d.merge_state = "NEW")) ∧
    (∀ c ∈ lc.code, ∃ d ∈ st, d.low_obj = some (.userCode c) ∧
      d.high_obj = (findCode hc.code c.id).map SyftObj.userCode ∧
      (findCode hc.code c.id = none → d.merge_state = "NEW")) ∧
    (∀ j ∈ hc.jobs, ∃ d ∈ st, d.high_obj = some (.job j) ∧
      d.low_obj = (findJob lc.jobs j.id).map SyftObj.job ∧
      (findJob lc.jobs j.id = none → d.merge_state = "NEW")) ∧
    (∀ g ∈ hc.logs, ∃ d ∈ st, d.high_obj = some (.syftLog g) ∧
      d.low_obj = (findLog lc.logs g.id).map SyftObj.syftLog ∧
      (findLog lc.logs g.id = none → d.merge_state = "NEW")) := by
  obtain ⟨st1, st2, st3, st4, h1, h2, h3, h4, h5⟩ := get_sync_state_decomp hok
  refine ⟨?_, ?_, ?_, ?_, ?_⟩
  · intro p hp
    obtain ⟨d, hd, hl, hh, hn⟩ := foldlM_except_cov
      (sync_projects_step_mono hc.projects) (sync_projects_step_cov hc.projects)
      lc.projects [] st1 h1 hp
    exact ⟨d, sync_logs_mono h5 d (sync_jobs_mono h4 d (sync_codes_mono h3 d
      (sync_requests_mono h2 d hd))), hl, hh, fun hnone => (hn hnone).1⟩
  · intro r hr
    obtain ⟨d, hd, hl, hh, hn⟩ := foldlM_except_cov
      (sync_requests_step_mono hc.requests) (sync_requests_step_cov hc.requests)
      lc.requests st1 st2 h2 hr
    exact ⟨d, sync_logs_mono h5 d (sync_jobs_mono h4 d (sync_codes_mono h3 d hd)),
      hl, hh, fun hnone => (hn hnone).1⟩
  · intro c hcm
    obtain ⟨d, hd, hl, hh, hn⟩ := foldlM_except_cov
      (sync_codes_step_mono hc.code) (sync_codes_step_cov hc.code)
      lc.code st2 st3 h3 hcm
    exact ⟨d, sync_logs_mono h5 d (sync_jobs_mono h4 d hd),
      hl, hh, fun hnone => (hn hnone).1⟩
  · intro j hj
    obtain ⟨d, hd, hh, hl, hn⟩ := foldlM_except_cov
      (sync_jobs_step_mono lc.jobs) (sync_jobs_step_cov lc.jobs)
      hc.jobs st3 st4 h4 hj
    exact ⟨d, sync_logs_mono h5 d hd, hh, hl, fun hnone => (hn hnone).1⟩
  · intro g hg
    obtain ⟨d, hd, hh, hl, hn⟩ := foldlM_except_cov
      (sync_logs_step_mono lc.logs) (sync_logs_step_cov lc.logs)
      hc.logs st4 st h5 hg
    exact ⟨d, hd, hh, hl, fun hnone => (hn hnone).1⟩

/-- Witness for C1 (amended): a low side with one project and one log
against an empty high side yields exactly the project's `NEW` diff (and,
per the counterexample, nothing for the low-only log). -/
theorem get_sync_state_coverage_witness :
    ∃ d ∈ ([⟨some (.project exProject), none, get_type (.project exProject),
        "NEW", []⟩] : List Diff),
      d.low_obj = some (.project exProject) ∧
      d.high_obj = (findProject emptyClient.projects exProject.id).map
        SyftObj.project ∧
      (findProject emptyClient.projects exProject.id = none →
        d.merge_state = "NEW") :=
  (get_sync_state_coverage exMixedClient emptyClient _ rfl).1 exProject (by decide)

end Syncing
